import Mathlib

/-
Shallow embedding of the Solana savings-vault program
(src/programs/vault2/src/lib.rs) and proofs about its specification.

Modelling notes, tied to the source:
- Pubkeys are natural numbers; program-derived addresses (PDAs) are modelled
  by the inductive `Addr`, whose constructors record the seed schema used by
  the program: `Addr.pdaState u` stands for the address derived from seeds
  [b"state", u] (lib.rs lines 111, 227, 358, 443) and `Addr.pdaVault s` for
  the address derived from seeds [b"vault", s] (lines 125, 134, 236, 367).
  Constructor injectivity models collision resistance of the derivation.
- Token balances are u64; the SPL token transfer checks that the source
  balance covers the amount and that the destination balance does not
  overflow u64, and is otherwise a plain move (`splTransfer`).
- Anchor deserializes every `Account` once, at instruction entry, and a CPI
  does not refresh the deserialized copy unless `reload()` is called. The
  program never calls `reload()`, so every read of
  `self.vault_token_account.amount` inside the instruction body sees the
  entry snapshot. The embedding therefore distinguishes the entry snapshot
  (the `TokenAccount` fields of the accounts structure) from the live
  balances threaded through the transfer service.
- Anchor account constraints run before the instruction body; a constraint
  violation aborts with no effect (`NotAuthorized` in the embedding).
  The `init` constraint of `initialize` fails when the account already
  exists (`AlreadyExists` in the embedding).
- Timestamps are i64 (`Clock::get()?.unix_timestamp`); `checked_add` on i64
  is modelled over `Int` with explicit range checks.
- Each operation returns, besides its result, the list of transfer requests
  it issued to the token program, so that "no transfer occurs" is statable.
-/

namespace SolanaVault

abbrev Pubkey := Nat

/-- Addresses: raw keys and the two PDA schemas used by the program. -/
inductive Addr where
  | raw : Pubkey → Addr
  | pdaState : Pubkey → Addr
  | pdaVault : Addr → Addr
deriving DecidableEq

/-- An SPL token account as deserialized at instruction entry. -/
structure TokenAccount where
  owner : Pubkey
  mint : Pubkey
  amount : Nat
deriving DecidableEq

/-- The Vault state account, lib.rs lines 481-508. -/
structure Vault where
  amount : Nat
  vault_bump : Nat
  state_bump : Nat
  mint : Pubkey
  vault_token_account : Addr
  locked_until : Option Int
deriving DecidableEq

/-- Failure kinds: the program's own ErrorCode (lines 511-520) plus the
rejections produced by the Anchor constraint layer and the token program. -/
inductive VErr where
  | TokensLocked
  | InvalidLockDuration
  | NotAuthorized
  | AlreadyExists
  | TransferFailed
deriving DecidableEq

/-- A transfer request issued to the SPL token program. -/
structure Transfer where
  source : Addr
  dest : Addr
  amt : Nat
  authority : Addr
deriving DecidableEq

def U64MOD : Nat := 2 ^ 64

/-- SPL token transfer semantics on live balances: fails on insufficient
source funds or destination u64 overflow, else moves `amt`. -/
def splTransfer (fromBal toBal amt : Nat) : Option (Nat × Nat) :=
  if amt ≤ fromBal ∧ toBal + amt < U64MOD then some (fromBal - amt, toBal + amt)
  else none

/-- The accounts taken by the Deposit and Withdraw instructions
(lib.rs lines 199-243 and 330-374; the two structures list the same
accounts with the same constraints). Token-account fields hold the
entry snapshot. -/
structure VaultOpAccounts where
  user : Pubkey
  userTAkey : Addr
  userTA : TokenAccount
  vaultTAkey : Addr
  vaultTA : TokenAccount
  vaultAuthKey : Addr
  stateKey : Addr
  state : Vault
deriving DecidableEq

/-- The lock check of withdraw, lib.rs lines 391-397: passes when no lock is
set or `now >= locked_until`. -/
def lockPassed (lu : Option Int) (now : Int) : Bool :=
  match lu with
  | some t => decide (t ≤ now)
  | none => true

namespace Deposit

/-- Anchor constraints of the Deposit accounts, lib.rs lines 209-239:
user owns the source token account, mints agree, the vault token account is
the one recorded in state, the state account is the PDA of the signer, and
the vault authority is the PDA derived from the state key. -/
def validate (a : VaultOpAccounts) : Bool :=
  a.userTA.owner == a.user &&
  a.userTA.mint == a.state.mint &&
  a.vaultTAkey == a.state.vault_token_account &&
  a.stateKey == Addr.pdaState a.user &&
  a.vaultAuthKey == Addr.pdaVault a.stateKey

/-- The user-signed deposit leg, lib.rs lines 260-270. -/
def depositLeg (a : VaultOpAccounts) (amount : Nat) : Transfer :=
  { source := a.userTAkey, dest := a.vaultTAkey, amt := amount
    authority := Addr.raw a.user }

/-- The PDA-signed release leg, lib.rs lines 292-314; its amount is the
vault balance read from the entry snapshot. -/
def releaseLeg (a : VaultOpAccounts) : Transfer :=
  { source := a.vaultTAkey, dest := a.userTAkey, amt := a.vaultTA.amount
    authority := a.vaultAuthKey }

/-- is_savings_target_reached, lib.rs lines 287-318. `ub`/`vb` are the live
balances after the deposit leg; both reads of
`self.vault_token_account.amount` (the condition on line 289 and the
transferred amount on line 314) see the entry snapshot `a.vaultTA.amount`,
because the program never calls `reload()` after the deposit CPI. -/
def is_savings_target_reached (a : VaultOpAccounts) (ub vb : Nat) :
    Except VErr (Nat × Nat) × List Transfer :=
  if a.state.amount ≤ a.vaultTA.amount then
    match splTransfer vb ub a.vaultTA.amount with
    | none => (Except.error VErr.TransferFailed, [releaseLeg a])
    | some (v2, u2) => (Except.ok (u2, v2), [releaseLeg a])
  else (Except.ok (ub, vb), [])

/-- deposit, lib.rs lines 259-276: user-signed transfer in, then the
auto-release check. -/
def depositBody (a : VaultOpAccounts) (amount : Nat) :
    Except VErr (Nat × Nat) × List Transfer :=
  match splTransfer a.userTA.amount a.vaultTA.amount amount with
  | none => (Except.error VErr.TransferFailed, [depositLeg a amount])
  | some (u1, v1) =>
    let r := is_savings_target_reached a u1 v1
    (r.1, depositLeg a amount :: r.2)

/-- The full Deposit instruction: constraints, then the body. On success it
returns the post-instruction vault record (the body never assigns any state
field; the state account is not even marked mut) and the live balances. -/
def run (a : VaultOpAccounts) (amount : Nat) :
    Except VErr (Vault × Nat × Nat) × List Transfer :=
  if validate a then
    match depositBody a amount with
    | (Except.ok (u, v), ts) => (Except.ok (a.state, u, v), ts)
    | (Except.error e, ts) => (Except.error e, ts)
  else (Except.error VErr.NotAuthorized, [])

end Deposit

/-- Replace the entry snapshot of a token account with a fresh balance. -/
def refreshTA (t : TokenAccount) (bal : Nat) : TokenAccount :=
  { t with amount := bal }

/-- Re-enter the instruction with fresh snapshots of the two token accounts,
as happens at the start of each transaction. -/
def refresh (a : VaultOpAccounts) (ub vb : Nat) : VaultOpAccounts :=
  { a with userTA := refreshTA a.userTA ub, vaultTA := refreshTA a.vaultTA vb }

/-- A sequence of Deposit instructions, each deserializing the accounts
afresh from the live balances. -/
def runSeq (a : VaultOpAccounts) :
    Nat → Nat → List Nat → Except VErr (Nat × Nat) × List Transfer
  | ub, vb, [] => (Except.ok (ub, vb), [])
  | ub, vb, amt :: rest =>
    match Deposit.run (refresh a ub vb) amt with
    | (Except.ok (_, u2, v2), ts) =>
      let r := runSeq a u2 v2 rest
      (r.1, ts ++ r.2)
    | (Except.error e, ts) => (Except.error e, ts)

namespace Withdraw

/-- Anchor constraints of the Withdraw accounts, lib.rs lines 340-370
(the same constraint set as Deposit). -/
def validate (a : VaultOpAccounts) : Bool :=
  a.userTA.owner == a.user &&
  a.userTA.mint == a.state.mint &&
  a.vaultTAkey == a.state.vault_token_account &&
  a.stateKey == Addr.pdaState a.user &&
  a.vaultAuthKey == Addr.pdaVault a.stateKey

/-- The PDA-signed withdrawal leg, lib.rs lines 399-420. -/
def withdrawLeg (a : VaultOpAccounts) (amount : Nat) : Transfer :=
  { source := a.vaultTAkey, dest := a.userTAkey, amt := amount
    authority := a.vaultAuthKey }

/-- The transfer half of withdraw, lib.rs lines 399-420: the request for the
full `amount` is handed to the token program with no balance check by the
vault program. -/
def execTransfer (a : VaultOpAccounts) (amount : Nat) :
    Except VErr (Vault × Nat × Nat) × List Transfer :=
  match splTransfer a.vaultTA.amount a.userTA.amount amount with
  | none => (Except.error VErr.TransferFailed, [withdrawLeg a amount])
  | some (v2, u2) => (Except.ok (a.state, u2, v2), [withdrawLeg a amount])

/-- The full Withdraw instruction, lib.rs lines 389-423: constraints, the
lock check, then the transfer. -/
def run (a : VaultOpAccounts) (now : Int) (amount : Nat) :
    Except VErr (Vault × Nat × Nat) × List Transfer :=
  if validate a then
    if lockPassed a.state.locked_until now then execTransfer a amount
    else (Except.error VErr.TokensLocked, [])
  else (Except.error VErr.NotAuthorized, [])

end Withdraw

/-- The accounts taken by the LockTokens instruction, lib.rs lines 431-447. -/
structure LockAccounts where
  user : Pubkey
  stateKey : Addr
  state : Vault
deriving DecidableEq

namespace LockTokens

/-- Anchor constraints of the LockTokens accounts, lib.rs lines 441-445:
the state account is the PDA of the signer. -/
def validate (a : LockAccounts) : Bool :=
  a.stateKey == Addr.pdaState a.user

def I64MIN : Int := -(2 ^ 63)
def I64MAX : Int := 2 ^ 63 - 1

/-- i64::checked_add: some on the mathematical sum when it is representable
as an i64, none on overflow in either direction. -/
def i64CheckedAdd (x y : Int) : Option Int :=
  if I64MIN ≤ x + y ∧ x + y ≤ I64MAX then some (x + y) else none

/-- lock_tokens, lib.rs lines 462-474: compute now + duration with
checked_add, fail with InvalidLockDuration on overflow, else store the new
expiry. No transfer is issued. -/
def run (a : LockAccounts) (now d : Int) : Except VErr Vault × List Transfer :=
  if validate a then
    match i64CheckedAdd now d with
    | none => (Except.error VErr.InvalidLockDuration, [])
    | some t => (Except.ok { a.state with locked_until := some t }, [])
  else (Except.error VErr.NotAuthorized, [])

end LockTokens

/-- The persisted vault records, keyed by owner: the state account lives at
`Addr.pdaState owner`, and the PDA schema is injective in the owner, so a
map indexed by the owner is exact. -/
abbrev VMap := Pubkey → Option Vault

namespace Initialize

/-- The record created by initialize, lib.rs lines 167-187: target amount,
mint, the custody account at its PDA, and no lock. Bump seeds are platform
artifacts of the derivation and are modelled as 0. -/
def mkVault (target : Nat) (mint : Pubkey) (user : Pubkey) : Vault :=
  { amount := target
    vault_bump := 0
    state_bump := 0
    mint := mint
    vault_token_account := Addr.pdaVault (Addr.pdaState user)
    locked_until := none }

/-- The Initialize instruction, lib.rs lines 98-148 and 167-187: the state
account is created with `init` at seeds [b"state", user], which fails when a
record already exists at that address, regardless of the mint argument. -/
def run (m : VMap) (user : Pubkey) (target : Nat) (mint : Pubkey) :
    Except VErr (VMap × Vault) :=
  match m user with
  | some _ => Except.error VErr.AlreadyExists
  | none =>
    Except.ok (fun u => if u == user then some (mkVault target mint user) else m u,
               mkVault target mint user)

/-- Two initialize calls by the same user in sequence. -/
def runTwice (m : VMap) (user : Pubkey) (t1 : Nat) (a1 : Pubkey)
    (t2 : Nat) (a2 : Pubkey) : Except VErr (VMap × Vault) :=
  match run m user t1 a1 with
  | Except.error e => Except.error e
  | Except.ok (m2, _) => run m2 user t2 a2

def isOk (e : Except VErr (VMap × Vault)) : Bool :=
  match e with
  | Except.ok _ => true
  | Except.error _ => false

end Initialize

/-- Forget the returned vault record, keeping error/balances/transfers. -/
def depOutcome (r : Except VErr (Vault × Nat × Nat) × List Transfer) :
    Except VErr (Nat × Nat) × List Transfer :=
  (r.1.map (fun p => p.2), r.2)

/-- Change only the target amount of the state account. -/
def setTarget (a : VaultOpAccounts) (m : Nat) : VaultOpAccounts :=
  { a with state := { a.state with amount := m } }

/-- Change only the lock state of the state account. -/
def setLock (a : VaultOpAccounts) (lu : Option Int) : VaultOpAccounts :=
  { a with state := { a.state with locked_until := lu } }

/-- An i64-representable integer. -/
def inI64 (x : Int) : Prop := LockTokens.I64MIN ≤ x ∧ x ≤ LockTokens.I64MAX

/-- A vault record with target 1000 for owner 7 over mint 5. -/
def exState1 : Vault :=
  { amount := 1000
    vault_bump := 0
    state_bump := 0
    mint := 5
    vault_token_account := Addr.pdaVault (Addr.pdaState 7)
    locked_until := none }

/-- Deposit accounts for owner 7: entry snapshot has 700 in the user account
and 400 already in custody. -/
def exDepositA : VaultOpAccounts :=
  { user := 7
    userTAkey := Addr.raw 11
    userTA := { owner := 7, mint := 5, amount := 700 }
    vaultTAkey := Addr.pdaVault (Addr.pdaState 7)
    vaultTA := { owner := 99, mint := 5, amount := 400 }
    vaultAuthKey := Addr.pdaVault (Addr.pdaState 7)
    stateKey := Addr.pdaState 7
    state := exState1 }

/-- Deposit accounts for owner 7: entry snapshot has 100 in the user account
and 1200 already in custody (above the 1000 target). -/
def exDepositB : VaultOpAccounts :=
  { exDepositA with
    userTA := { owner := 7, mint := 5, amount := 100 }
    vaultTA := { owner := 99, mint := 5, amount := 1200 } }

/-- Characterization of a successful SPL transfer. -/
theorem splTransfer_eq_some {fb tb amt u v : Nat}
    (h : splTransfer fb tb amt = some (u, v)) :
    amt ≤ fb ∧ u = fb - amt ∧ v = tb + amt := by
  unfold splTransfer at h
  split at h
  · next hc =>
    simp only [Option.some.injEq, Prod.mk.injEq] at h
    exact ⟨hc.1, h.1.symm, h.2.symm⟩
  · cases h

/-- When the entry snapshot of the custody balance is below the target, the
deposit instruction is just the validated deposit leg: the auto-release
branch is not taken. -/
theorem deposit_run_below {a : VaultOpAccounts} {amt : Nat}
    (hlt : a.vaultTA.amount < a.state.amount) :
    Deposit.run a amt =
      if Deposit.validate a then
        match splTransfer a.userTA.amount a.vaultTA.amount amt with
        | none => (Except.error VErr.TransferFailed, [Deposit.depositLeg a amt])
        | some (u1, v1) => (Except.ok (a.state, u1, v1), [Deposit.depositLeg a amt])
      else (Except.error VErr.NotAuthorized, []) := by
  unfold Deposit.run Deposit.depositBody Deposit.is_savings_target_reached
  have hc : ¬ (a.state.amount ≤ a.vaultTA.amount) := Nat.not_le.mpr hlt
  cases hs : splTransfer a.userTA.amount a.vaultTA.amount amt with
  | none => simp [hs]
  | some p =>
    cases p with
    | mk u1 v1 => simp [hs, hc]

/-- Invariant for sequences of deposits that stay below the target: the live
custody balance accumulates the deposited amounts and every issued transfer
is the user-signed deposit leg (no PDA-signed release is ever issued). -/
theorem runSeq_below_target (a : VaultOpAccounts) (amts : List Nat) :
    ∀ ub vb uf vf ts,
      vb + amts.sum < a.state.amount →
      runSeq a ub vb amts = (Except.ok (uf, vf), ts) →
      vf = vb + amts.sum ∧ ∀ t ∈ ts, t.authority = Addr.raw a.user := by
  induction amts with
  | nil =>
    intro ub vb uf vf ts hlt hrun
    unfold runSeq at hrun
    simp only [Prod.mk.injEq, Except.ok.injEq] at hrun
    obtain ⟨⟨hu, hv⟩, hts⟩ := hrun
    subst hv
    subst hts
    simp
  | cons amt rest ih =>
    intro ub vb uf vf ts hlt hrun
    unfold runSeq at hrun
    have hba : (refresh a ub vb).vaultTA.amount < (refresh a ub vb).state.amount := by
      simp only [refresh, refreshTA]
      have : (amt :: rest).sum = amt + rest.sum := List.sum_cons
      omega
    rw [deposit_run_below hba] at hrun
    cases hval : Deposit.validate (refresh a ub vb) with
    | false => rw [hval] at hrun; simp at hrun
    | true =>
      rw [hval] at hrun
      simp only [if_true] at hrun
      cases hs : splTransfer ub vb amt with
      | none =>
        rw [show splTransfer (refresh a ub vb).userTA.amount
              (refresh a ub vb).vaultTA.amount amt = splTransfer ub vb amt from rfl,
            hs] at hrun
        simp at hrun
      | some p =>
        cases p with
        | mk u1 v1 =>
          rw [show splTransfer (refresh a ub vb).userTA.amount
                (refresh a ub vb).vaultTA.amount amt = splTransfer ub vb amt from rfl,
              hs] at hrun
          simp only [Prod.mk.injEq] at hrun
          obtain ⟨hres, hts⟩ := hrun
          obtain ⟨hle, hu1, hv1⟩ := splTransfer_eq_some hs
          cases hr : runSeq a u1 v1 rest with
          | mk res ts2 =>
            rw [hr] at hres hts
            dsimp only at hres hts
            have hsum : (amt :: rest).sum = amt + rest.sum := List.sum_cons
            have hih := ih u1 v1 uf vf ts2 (by omega) (by rw [hr, hres])
            constructor
            · omega
            · intro t ht
              rw [← hts] at ht
              rcases List.mem_cons.mp ht with heq | hmem
              · subst heq; rfl
              · exact hih.2 t hmem

/-- C1: for every vault and every successful deposit(amount), the
auto-release is claimed to trigger iff the custody account's post-deposit
balance is at least target_amount, transferring the entire balance read at
that moment and leaving custody at 0. The program instead reads the stale
entry snapshot of the custody balance (it never calls reload() after the
deposit CPI), contradicting its own doc comments: with target 1000 and 400
already in custody, a deposit of 700 brings the live custody balance to
1100, at least the target, yet only the deposit leg is issued and custody
stays at 1100; and with 1200 already in custody, a deposit of 100 fires the
release but transfers only the stale 1200 of the live 1300, leaving custody
at 100 rather than 0. -/
theorem deposit_auto_release_reads_stale_balance :
    (Deposit.run exDepositA 700 =
      (Except.ok (exState1, 0, 1100), [Deposit.depositLeg exDepositA 700])) ∧
    exState1.amount ≤ 1100 ∧
    (Deposit.run exDepositB 100 =
      (Except.ok (exState1, 1200, 100),
        [Deposit.depositLeg exDepositB 100, Deposit.releaseLeg exDepositB])) ∧
    (Deposit.releaseLeg exDepositB).amt = 1200 :=
  ⟨rfl, by decide, rfl, rfl⟩

/-- C2: for every vault with target_amount > 0 and every sequence of
successful deposits whose amounts sum to S < target_amount, starting from an
empty custody account, the final custody balance equals S and no release
transfer is issued on any deposit in the sequence: every issued transfer is
signed by the user, none by the vault authority PDA. -/
theorem deposits_below_target_accumulate (a : VaultOpAccounts) (ub uf vf : Nat)
    (amts : List Nat) (ts : List Transfer)
    (_htgt : 0 < a.state.amount)
    (hsum : amts.sum < a.state.amount)
    (hrun : runSeq a ub 0 amts = (Except.ok (uf, vf), ts)) :
    vf = amts.sum ∧ ∀ t ∈ ts, t.authority = Addr.raw a.user := by
  have h := runSeq_below_target a amts ub 0 uf vf ts (by omega) hrun
  exact ⟨by omega, h.2⟩

/-- Witness for C2: owner 7 deposits 400 then 300 against target 1000
starting from an empty custody account; custody ends at 700 and both issued
transfers are user-signed deposit legs. -/
theorem deposits_below_target_accumulate_witness :
    (700 : Nat) = [400, 300].sum ∧
    ∀ t ∈ [Deposit.depositLeg (refresh exDepositA 1000000 0) 400,
           Deposit.depositLeg (refresh exDepositA 999600 400) 300],
      t.authority = Addr.raw exDepositA.user :=
  deposits_below_target_accumulate exDepositA 1000000 999300 700 [400, 300] _
    (by decide) (by decide) rfl

/-- Withdraw accounts for owner 7 with custody locked until time 100:
entry snapshot has 100 in the user account and 400 in custody. -/
def exWithdrawL : VaultOpAccounts :=
  { exDepositA with
    userTA := { owner := 7, mint := 5, amount := 100 }
    state := { exState1 with locked_until := some 100 } }

/-- Lock accounts for owner 7 on an unlocked vault. -/
def exLock : LockAccounts :=
  { user := 7, stateKey := Addr.pdaState 7, state := exState1 }

/-- Lock accounts for owner 7 on a vault already locked until time 500. -/
def exLockL : LockAccounts :=
  { user := 7, stateKey := Addr.pdaState 7
    state := { exState1 with locked_until := some 500 } }

/-- The lock check fails exactly when an expiry is set and now is before it. -/
theorem lockPassed_eq_false {lu : Option Int} {now : Int} :
    lockPassed lu now = false ↔ ∃ t, lu = some t ∧ now < t := by
  cases lu with
  | none => simp [lockPassed]
  | some t =>
    simp only [lockPassed, decide_eq_false_iff_not, not_le, Option.some.injEq]
    constructor
    · intro h
      exact ⟨t, rfl, h⟩
    · rintro ⟨t2, ht2, hlt⟩
      cases ht2
      exact hlt

/-- The transfer half of withdraw never reports TokensLocked. -/
theorem execTransfer_fst_ne_locked (a : VaultOpAccounts) (amt : Nat) :
    (Withdraw.execTransfer a amt).1 ≠ Except.error VErr.TokensLocked := by
  unfold Withdraw.execTransfer
  cases hs : splTransfer a.vaultTA.amount a.userTA.amount amt with
  | none => simp
  | some p =>
    cases p with
    | mk v2 u2 => simp

/-- C3: for every vault, withdraw(amount) at time now fails with
TokensLocked iff locked_until = some t and now < t (the boundary now = t
succeeds); on that failure no transfer is issued; when the lock check
passes, withdraw transfers exactly amount from the custody account to the
owner, returning the vault record unchanged, and its observable outcome does
not depend on target_amount at all, so the balance can drop below the target
without changing it. -/
theorem withdraw_lock_spec (a : VaultOpAccounts) (now : Int) (amt : Nat)
    (hv : Withdraw.validate a = true) :
    ((Withdraw.run a now amt).1 = Except.error VErr.TokensLocked ↔
      ∃ t, a.state.locked_until = some t ∧ now < t) ∧
    ((Withdraw.run a now amt).1 = Except.error VErr.TokensLocked →
      (Withdraw.run a now amt).2 = []) ∧
    (lockPassed a.state.locked_until now = true →
      amt ≤ a.vaultTA.amount → a.userTA.amount + amt < U64MOD →
      Withdraw.run a now amt =
        (Except.ok (a.state, a.userTA.amount + amt, a.vaultTA.amount - amt),
          [Withdraw.withdrawLeg a amt])) ∧
    (∀ m : Nat, depOutcome (Withdraw.run (setTarget a m) now amt) =
      depOutcome (Withdraw.run a now amt)) := by
  refine ⟨?_, ?_, ?_, ?_⟩
  · unfold Withdraw.run
    rw [hv]
    simp only [if_true]
    cases hl : lockPassed a.state.locked_until now with
    | false =>
      simp only [if_false, Bool.false_eq_true]
      constructor
      · intro _
        exact lockPassed_eq_false.mp hl
      · intro _
        trivial
    | true =>
      simp only [if_true]
      constructor
      · intro h
        exact absurd h (execTransfer_fst_ne_locked a amt)
      · rintro ⟨t, ht, hlt⟩
        have : lockPassed a.state.locked_until now = false :=
          lockPassed_eq_false.mpr ⟨t, ht, hlt⟩
        rw [hl] at this
        cases this
  · intro h
    unfold Withdraw.run at h ⊢
    rw [hv] at h ⊢
    simp only [if_true] at h ⊢
    cases hl : lockPassed a.state.locked_until now with
    | false => rfl
    | true =>
      rw [hl] at h
      simp only [if_true] at h
      exact absurd h (execTransfer_fst_ne_locked a amt)
  · intro hl hle hov
    unfold Withdraw.run Withdraw.execTransfer
    rw [hv, hl]
    simp only [if_true]
    have hs : splTransfer a.vaultTA.amount a.userTA.amount amt =
        some (a.vaultTA.amount - amt, a.userTA.amount + amt) := by
      unfold splTransfer
      rw [if_pos ⟨hle, hov⟩]
    rw [hs]
  · intro m
    unfold Withdraw.run
    rw [show Withdraw.validate (setTarget a m) = Withdraw.validate a from rfl, hv]
    simp only [if_true]
    rw [show (setTarget a m).state.locked_until = a.state.locked_until from rfl]
    cases hl : lockPassed a.state.locked_until now with
    | false => rfl
    | true =>
      simp only [if_true]
      unfold Withdraw.execTransfer
      rw [show splTransfer (setTarget a m).vaultTA.amount (setTarget a m).userTA.amount amt
            = splTransfer a.vaultTA.amount a.userTA.amount amt from rfl]
      cases hs : splTransfer a.vaultTA.amount a.userTA.amount amt with
      | none => rfl
      | some p =>
        cases p with
        | mk v2 u2 => rfl

/-- Witness for C3: on a vault locked until time 100, withdrawing 30 at
time 99 fails with TokensLocked, and at the boundary time 100 it succeeds,
moving exactly 30 from custody (400 to 370) to the owner (100 to 130). -/
theorem withdraw_lock_spec_witness :
    (Withdraw.run exWithdrawL 99 30).1 = Except.error VErr.TokensLocked ∧
    Withdraw.run exWithdrawL 100 30 =
      (Except.ok (exWithdrawL.state, 130, 370), [Withdraw.withdrawLeg exWithdrawL 30]) :=
  ⟨((withdraw_lock_spec exWithdrawL 99 30 (by decide)).1).mpr ⟨100, rfl, by decide⟩,
   (withdraw_lock_spec exWithdrawL 100 30 (by decide)).2.2.1 (by decide) (by decide)
     (by decide)⟩

/-- C10: withdraw performs no check of amount against the custody balance:
once the constraints and the lock check pass, the transfer request for the
full amount is handed to the token program for every amount, and an
oversized amount surfaces as the token program's failure, not as a vault
error. -/
theorem withdraw_defers_balance_check (a : VaultOpAccounts) (now : Int) (amt : Nat)
    (hv : Withdraw.validate a = true)
    (hl : lockPassed a.state.locked_until now = true) :
    (Withdraw.run a now amt).2 = [Withdraw.withdrawLeg a amt] ∧
    (a.vaultTA.amount < amt →
      (Withdraw.run a now amt).1 = Except.error VErr.TransferFailed) := by
  unfold Withdraw.run
  rw [hv, hl]
  simp only [if_true]
  unfold Withdraw.execTransfer
  constructor
  · cases hs : splTransfer a.vaultTA.amount a.userTA.amount amt with
    | none => rfl
    | some p =>
      cases p with
      | mk v2 u2 => rfl
  · intro hlt
    have hs : splTransfer a.vaultTA.amount a.userTA.amount amt = none := by
      unfold splTransfer
      rw [if_neg]
      intro h
      omega
    rw [hs]

/-- Witness for C10: with only 400 in custody and the lock elapsed, a
withdraw request for 1000000 is still issued in full to the token program
and fails there. -/
theorem withdraw_defers_balance_check_witness :
    (Withdraw.run exWithdrawL 200 1000000).2 =
      [Withdraw.withdrawLeg exWithdrawL 1000000] ∧
    (Withdraw.run exWithdrawL 200 1000000).1 = Except.error VErr.TransferFailed :=
  ⟨(withdraw_defers_balance_check exWithdrawL 200 1000000 (by decide) (by decide)).1,
   (withdraw_defers_balance_check exWithdrawL 200 1000000 (by decide) (by decide)).2
     (by decide)⟩

/-- C4: for every vault in any lock state and every duration d, lock(d) at
time now sets locked_until = some (now + d) when now + d is representable
as an i64, fails with InvalidLockDuration exactly when now + d overflows,
and issues no transfer in either case. -/
theorem lock_tokens_overflow_spec (a : LockAccounts) (now d : Int)
    (hv : LockTokens.validate a = true) :
    (inI64 (now + d) →
      LockTokens.run a now d =
        (Except.ok { a.state with locked_until := some (now + d) }, [])) ∧
    (¬ inI64 (now + d) →
      LockTokens.run a now d = (Except.error VErr.InvalidLockDuration, [])) := by
  unfold LockTokens.run LockTokens.i64CheckedAdd
  rw [hv]
  simp only [if_true]
  constructor
  · intro h
    simp only [inI64] at h
    rw [if_pos h]
  · intro h
    simp only [inI64] at h
    rw [if_neg h]

/-- Witness for C4: locking for 50 at time 100 sets the expiry to 150, and
locking for 1 at time 2^63 - 1 overflows i64 and fails. -/
theorem lock_tokens_overflow_spec_witness :
    LockTokens.run exLock 100 50 =
      (Except.ok { exLock.state with locked_until := some 150 }, []) ∧
    LockTokens.run exLock (2 ^ 63 - 1) 1 =
      (Except.error VErr.InvalidLockDuration, []) :=
  ⟨(lock_tokens_overflow_spec exLock 100 50 (by decide)).1 ⟨by decide, by decide⟩,
   (lock_tokens_overflow_spec exLock (2 ^ 63 - 1) 1 (by decide)).2
     (by intro h; exact absurd h.2 (by decide))⟩

/-- C9: lock accepts every signed 64-bit duration, including negative ones:
whenever now + d is representable, lock(d) succeeds and stores
some (now + d), even when d is negative and even when the stored expiry
now + d is strictly earlier than the previously stored expiry T; a negative
duration yields an expiry in the past, so the withdraw lock check passes
immediately at the same time now. -/
theorem lock_accepts_negative_duration (a : LockAccounts) (now d T : Int)
    (hv : LockTokens.validate a = true) (hd : d < 0)
    (hin : inI64 (now + d))
    (_hT : a.state.locked_until = some T) (_hTgt : now + d < T) :
    LockTokens.run a now d =
      (Except.ok { a.state with locked_until := some (now + d) }, []) ∧
    lockPassed (some (now + d)) now = true := by
  constructor
  · unfold LockTokens.run LockTokens.i64CheckedAdd
    rw [hv]
    simp only [if_true]
    simp only [inI64] at hin
    rw [if_pos hin]
  · unfold lockPassed
    simp only [decide_eq_true_eq]
    omega

/-- Witness for C9: on a vault locked until 500, lock(-50) at time 100
replaces the expiry with 50, strictly earlier, and the withdraw lock check
already passes at time 100. -/
theorem lock_accepts_negative_duration_witness :
    LockTokens.run exLockL 100 (-50) =
      (Except.ok { exLockL.state with locked_until := some 50 }, []) ∧
    lockPassed (some (50 : Int)) 100 = true := by
  have h := lock_accepts_negative_duration exLockL 100 (-50) 500 (by decide)
    (by decide) ⟨by decide, by decide⟩ rfl (by decide)
  exact ⟨h.1, h.2⟩

/-- A successful Deposit instruction returns the vault record it was given:
the body assigns no state field. -/
theorem deposit_run_ok_state {a : VaultOpAccounts} {amt : Nat}
    {st : Vault} {u v : Nat} {ts : List Transfer}
    (h : Deposit.run a amt = (Except.ok (st, u, v), ts)) : st = a.state := by
  unfold Deposit.run at h
  cases hv : Deposit.validate a with
  | false => rw [hv] at h; simp at h
  | true =>
    rw [hv] at h
    simp only [if_true] at h
    cases hb : Deposit.depositBody a amt with
    | mk res ts2 =>
      rw [hb] at h
      cases res with
      | ok p =>
        cases p with
        | mk u2 v2 =>
          simp only [Prod.mk.injEq, Except.ok.injEq] at h
          exact h.1.1.symm
      | error e => simp at h

/-- A successful Withdraw instruction returns the vault record it was given:
the body assigns no state field. -/
theorem withdraw_run_ok_state {a : VaultOpAccounts} {now : Int} {amt : Nat}
    {st : Vault} {u v : Nat} {ts : List Transfer}
    (h : Withdraw.run a now amt = (Except.ok (st, u, v), ts)) : st = a.state := by
  unfold Withdraw.run at h
  cases hv : Withdraw.validate a with
  | false => rw [hv] at h; simp at h
  | true =>
    rw [hv] at h
    simp only [if_true] at h
    cases hl : lockPassed a.state.locked_until now with
    | false => rw [hl] at h; simp at h
    | true =>
      rw [hl] at h
      simp only [if_true] at h
      unfold Withdraw.execTransfer at h
      cases hs : splTransfer a.vaultTA.amount a.userTA.amount amt with
      | none => rw [hs] at h; simp at h
      | some p =>
        cases p with
        | mk v2 u2 =>
          rw [hs] at h
          simp only [Prod.mk.injEq, Except.ok.injEq] at h
          exact h.1.1.symm

/-- A successful LockTokens instruction returns the vault record it was
given with only the lock expiry replaced. -/
theorem lock_run_ok_state {a : LockAccounts} {now d : Int}
    {st : Vault} {ts : List Transfer}
    (h : LockTokens.run a now d = (Except.ok st, ts)) :
    ∃ t, st = { a.state with locked_until := some t } := by
  unfold LockTokens.run at h
  cases hv : LockTokens.validate a with
  | false => rw [hv] at h; simp at h
  | true =>
    rw [hv] at h
    simp only [if_true] at h
    cases hc : LockTokens.i64CheckedAdd now d with
    | none => rw [hc] at h; simp at h
    | some t =>
      rw [hc] at h
      simp only [Prod.mk.injEq, Except.ok.injEq] at h
      exact ⟨t, h.1.symm⟩

/-- If the Deposit constraints pass, the signer is the owner whose key
derives the state account address. -/
theorem deposit_validate_user {a : VaultOpAccounts} {owner : Pubkey}
    (hk : a.stateKey = Addr.pdaState owner)
    (hv : Deposit.validate a = true) : a.user = owner := by
  unfold Deposit.validate at hv
  simp only [Bool.and_eq_true, beq_iff_eq] at hv
  have hkey : a.stateKey = Addr.pdaState a.user := hv.1.2
  rw [hk] at hkey
  exact (Addr.pdaState.inj hkey).symm

/-- If the Withdraw constraints pass, the signer is the owner whose key
derives the state account address. -/
theorem withdraw_validate_user {a : VaultOpAccounts} {owner : Pubkey}
    (hk : a.stateKey = Addr.pdaState owner)
    (hv : Withdraw.validate a = true) : a.user = owner := by
  unfold Withdraw.validate at hv
  simp only [Bool.and_eq_true, beq_iff_eq] at hv
  have hkey : a.stateKey = Addr.pdaState a.user := hv.1.2
  rw [hk] at hkey
  exact (Addr.pdaState.inj hkey).symm

/-- If the LockTokens constraint passes, the signer is the owner whose key
derives the state account address. -/
theorem lock_validate_user {a : LockAccounts} {owner : Pubkey}
    (hk : a.stateKey = Addr.pdaState owner)
    (hv : LockTokens.validate a = true) : a.user = owner := by
  unfold LockTokens.validate at hv
  simp only [beq_iff_eq] at hv
  rw [hk] at hv
  exact (Addr.pdaState.inj hv).symm

/-- C5 counterexample: the claim says there is one Vault Record per
(owner, asset_type) pair, so a first initialize for the pair (owner 7,
asset 6) should succeed even after the pair (owner 7, asset 5) was
initialized. In the program the state address is derived from the owner's
key alone (seeds [b"state", user]), so the second call collides with the
first record and fails with AlreadyExists although its (owner, asset) pair
was never initialized. -/
theorem init_not_per_owner_asset_pair :
    Initialize.isOk (Initialize.run (fun _ => none) 7 1000 5) = true ∧
    (5 : Pubkey) ≠ 6 ∧
    Initialize.runTwice (fun _ => none) 7 1000 5 1000 6 =
      Except.error VErr.AlreadyExists :=
  ⟨rfl, by decide, rfl⟩

/-- C5 amended: there is one Vault Record per owner, addressed by a
deterministic identifier recomputable from the owner alone (the asset type
does not enter the derivation). A first initialize by an owner succeeds and
creates the record with locked_until = none, the given target and mint, and
the custody reference at its derived address; any second initialize by the
same owner, for the same or a different asset type, fails with AlreadyExists
and returns no state, leaving the first record unaltered. -/
theorem init_per_owner_spec (m : VMap) (u : Pubkey) (t : Nat) (mintA : Pubkey) :
    (m u = none →
      Initialize.run m u t mintA =
        Except.ok
          (fun x => if x == u then some (Initialize.mkVault t mintA u) else m x,
           Initialize.mkVault t mintA u) ∧
      (Initialize.mkVault t mintA u).locked_until = none ∧
      (Initialize.mkVault t mintA u).amount = t ∧
      (Initialize.mkVault t mintA u).mint = mintA ∧
      (Initialize.mkVault t mintA u).vault_token_account =
        Addr.pdaVault (Addr.pdaState u)) ∧
    (∀ v0, m u = some v0 → ∀ t2 mintB,
      Initialize.run m u t2 mintB = Except.error VErr.AlreadyExists) := by
  constructor
  · intro h
    refine ⟨?_, rfl, rfl, rfl, rfl⟩
    unfold Initialize.run
    rw [h]
  · intro v0 h t2 mintB
    unfold Initialize.run
    rw [h]

/-- Witness for the amended C5: owner 7 initializes against an empty store
and gets a fresh unlocked record; a second initialize by owner 7 with a
different target and asset fails with AlreadyExists. -/
theorem init_per_owner_spec_witness :
    Initialize.run (fun _ => none) 7 1000 5 =
      Except.ok
        (fun x => if x == 7 then some (Initialize.mkVault 1000 5 7) else none,
         Initialize.mkVault 1000 5 7) ∧
    Initialize.run
      (fun x => if x == 7 then some (Initialize.mkVault 1000 5 7) else none)
      7 2000 6 = Except.error VErr.AlreadyExists :=
  ⟨((init_per_owner_spec (fun _ => none) 7 1000 5).1 rfl).1,
   (init_per_owner_spec
      (fun x => if x == 7 then some (Initialize.mkVault 1000 5 7) else none)
      7 2000 6).2 (Initialize.mkVault 1000 5 7) rfl 2000 6⟩

/-- C6: deposit performs no lock check: its outcome (success or failure,
balances, issued transfers) is the same for every lock state of the vault,
so deposit is permitted whether the vault is unlocked or locked with any
expiry, and neither the deposit leg nor the auto-release rule changes
locked_until. -/
theorem deposit_ignores_lock_state (a : VaultOpAccounts) (lu : Option Int)
    (amt : Nat) :
    depOutcome (Deposit.run (setLock a lu) amt) = depOutcome (Deposit.run a amt) ∧
    (∀ st u v ts, Deposit.run (setLock a lu) amt = (Except.ok (st, u, v), ts) →
      st.locked_until = lu) ∧
    (∀ st u v ts, Deposit.run a amt = (Except.ok (st, u, v), ts) →
      st.locked_until = a.state.locked_until) := by
  refine ⟨?_, ?_, ?_⟩
  · unfold Deposit.run
    rw [show Deposit.validate (setLock a lu) = Deposit.validate a from rfl]
    cases hv : Deposit.validate a with
    | false => rfl
    | true =>
      simp only [if_true]
      rw [show Deposit.depositBody (setLock a lu) amt = Deposit.depositBody a amt
            from rfl]
      cases hb : Deposit.depositBody a amt with
      | mk res ts =>
        cases res with
        | ok p =>
          cases p with
          | mk u v => rfl
        | error e => rfl
  · intro st u v ts h
    rw [deposit_run_ok_state h]
    rfl
  · intro st u v ts h
    rw [deposit_run_ok_state h]

/-- Witness for C6: locking the vault until time 999 changes nothing about
the deposit of 700, and the returned record keeps exactly the lock state it
had on entry. -/
theorem deposit_ignores_lock_state_witness :
    depOutcome (Deposit.run (setLock exDepositA (some 999)) 700) =
      depOutcome (Deposit.run exDepositA 700) ∧
    (setLock exDepositA (some 999)).state.locked_until = some 999 :=
  ⟨(deposit_ignores_lock_state exDepositA (some 999) 700).1,
   (deposit_ignores_lock_state exDepositA (some 999) 700).2.1
     (setLock exDepositA (some 999)).state 0 1100
     [Deposit.depositLeg (setLock exDepositA (some 999)) 700] rfl⟩

/-- Deposit accounts in which the signer (user 8) is not the owner (user 7)
whose key derives the state account address. -/
def exIntruder : VaultOpAccounts :=
  { exDepositA with
    user := 8
    userTA := { owner := 8, mint := 5, amount := 50 } }

/-- Lock accounts in which the signer (user 8) is not the owner (user 7). -/
def exLockIntruder : LockAccounts :=
  { user := 8, stateKey := Addr.pdaState 7, state := exState1 }

/-- C7: for every vault, whose state account lives at the address derived
from its owner's key, a caller different from the owner is rejected by each
of deposit, withdraw and lock before any transfer or state change (the
result is NotAuthorized with an empty transfer list), and each of the three
succeeds only when the caller is the owner. -/
theorem only_owner_may_operate (owner : Pubkey) (a w : VaultOpAccounts)
    (l : LockAccounts)
    (ha : a.stateKey = Addr.pdaState owner)
    (hw : w.stateKey = Addr.pdaState owner)
    (hl : l.stateKey = Addr.pdaState owner) :
    (a.user ≠ owner →
      ∀ amt, Deposit.run a amt = (Except.error VErr.NotAuthorized, [])) ∧
    (∀ amt r ts, Deposit.run a amt = (Except.ok r, ts) → a.user = owner) ∧
    (w.user ≠ owner →
      ∀ now amt, Withdraw.run w now amt = (Except.error VErr.NotAuthorized, [])) ∧
    (∀ now amt r ts, Withdraw.run w now amt = (Except.ok r, ts) → w.user = owner) ∧
    (l.user ≠ owner →
      ∀ now d, LockTokens.run l now d = (Except.error VErr.NotAuthorized, [])) ∧
    (∀ now d r ts, LockTokens.run l now d = (Except.ok r, ts) → l.user = owner) := by
  refine ⟨?_, ?_, ?_, ?_, ?_, ?_⟩
  · intro hne amt
    cases hv : Deposit.validate a with
    | false => unfold Deposit.run; rw [hv]; rfl
    | true => exact absurd (deposit_validate_user ha hv) hne
  · intro amt r ts h
    cases hv : Deposit.validate a with
    | false => unfold Deposit.run at h; rw [hv] at h; simp at h
    | true => exact deposit_validate_user ha hv
  · intro hne now amt
    cases hv : Withdraw.validate w with
    | false => unfold Withdraw.run; rw [hv]; rfl
    | true => exact absurd (withdraw_validate_user hw hv) hne
  · intro now amt r ts h
    cases hv : Withdraw.validate w with
    | false => unfold Withdraw.run at h; rw [hv] at h; simp at h
    | true => exact withdraw_validate_user hw hv
  · intro hne now d
    cases hv : LockTokens.validate l with
    | false => unfold LockTokens.run; rw [hv]; rfl
    | true => exact absurd (lock_validate_user hl hv) hne
  · intro now d r ts h
    cases hv : LockTokens.validate l with
    | false => unfold LockTokens.run at h; rw [hv] at h; simp at h
    | true => exact lock_validate_user hl hv

/-- Witness for C7: signer 8 against owner 7's vault is rejected with
NotAuthorized and no transfer by deposit, withdraw and lock alike. -/
theorem only_owner_may_operate_witness :
    Deposit.run exIntruder 50 = (Except.error VErr.NotAuthorized, []) ∧
    Withdraw.run exIntruder 0 50 = (Except.error VErr.NotAuthorized, []) ∧
    LockTokens.run exLockIntruder 0 60 = (Except.error VErr.NotAuthorized, []) :=
  ⟨(only_owner_may_operate 7 exIntruder exIntruder exLockIntruder rfl rfl rfl).1
     (by decide) 50,
   (only_owner_may_operate 7 exIntruder exIntruder exLockIntruder rfl rfl rfl).2.2.1
     (by decide) 0 50,
   (only_owner_may_operate 7 exIntruder exIntruder exLockIntruder rfl rfl rfl).2.2.2.2.1
     (by decide) 0 60⟩

/-- C8: after creation the vault record is immutable except for the lock
expiry: a successful deposit or withdraw returns the record exactly as it
was (target, bumps, mint and custody account reference included), and a
successful lock changes nothing but locked_until. -/
theorem vault_record_frame (a w : VaultOpAccounts) (l : LockAccounts) :
    (∀ amt st u v ts, Deposit.run a amt = (Except.ok (st, u, v), ts) →
      st = a.state) ∧
    (∀ now amt st u v ts, Withdraw.run w now amt = (Except.ok (st, u, v), ts) →
      st = w.state) ∧
    (∀ now d st ts, LockTokens.run l now d = (Except.ok st, ts) →
      st.amount = l.state.amount ∧ st.mint = l.state.mint ∧
      st.vault_token_account = l.state.vault_token_account ∧
      st.vault_bump = l.state.vault_bump ∧ st.state_bump = l.state.state_bump) := by
  refine ⟨?_, ?_, ?_⟩
  · intro amt st u v ts h
    exact deposit_run_ok_state h
  · intro now amt st u v ts h
    exact withdraw_run_ok_state h
  · intro now d st ts h
    obtain ⟨t, ht⟩ := lock_run_ok_state h
    subst ht
    exact ⟨rfl, rfl, rfl, rfl, rfl⟩

/-- Witness for C8: concrete successful runs of all three operations leave
every field but the lock expiry as it was. -/
theorem vault_record_frame_witness :
    exState1 = exDepositA.state ∧
    exWithdrawL.state = exWithdrawL.state ∧
    (({ exState1 with locked_until := some 150 } : Vault).amount =
        exLock.state.amount ∧
      ({ exState1 with locked_until := some 150 } : Vault).mint =
        exLock.state.mint ∧
      ({ exState1 with locked_until := some 150 } : Vault).vault_token_account =
        exLock.state.vault_token_account ∧
      ({ exState1 with locked_until := some 150 } : Vault).vault_bump =
        exLock.state.vault_bump ∧
      ({ exState1 with locked_until := some 150 } : Vault).state_bump =
        exLock.state.state_bump) :=
  ⟨(vault_record_frame exDepositA exWithdrawL exLock).1 700 exState1 0 1100
     [Deposit.depositLeg exDepositA 700] rfl,
   (vault_record_frame exDepositA exWithdrawL exLock).2.1 100 30
     exWithdrawL.state 130 370 [Withdraw.withdrawLeg exWithdrawL 30] rfl,
   (vault_record_frame exDepositA exWithdrawL exLock).2.2 100 50
     { exState1 with locked_until := some 150 } [] rfl⟩

end SolanaVault
